import Mathlib

/-!
Shallow embedding of bbmokus/pact-go, file src/v3/http_verifier.go.

The file implements the HTTP verification proxy: an ordered middleware
pipeline (before-hook, after-hook, state-handler, request filter), the
reserved provider-state setup path multiplexed over the proxy port, the
readiness waiter, and the orchestrator verifyProviderRaw that hands the
rewritten request to the external verification engine.

Modelling conventions:
 * Hooks (Go func() error) are embedded by their observable behaviour: the
   error value they return, so Hook := Option String (none = nil error).
 * State handlers (Go func(ProviderStateV3) error) become functions
   ProviderStateV3 -> Option String.
 * HTTP handlers are embedded as trace producers: a Handler maps a Request
   to the list of observable events it performs (hook invocations, state
   handler calls, WriteHeader calls, forwarding to the real provider).
   A Middleware is a Handler transformer, exactly as in the source
   (func(next http.Handler) http.Handler).
 * Go encoding/json semantics for the two-string-field struct
   stateHandlerAction: an unparseable body is a decode error; a parseable
   body yields the struct with absent fields set to their zero value "".
   This is embedded by Body.invalid / Body.valid with optional fields.
 * The Go map StateHandlers is embedded as an association list looked up
   with List.lookup (state names are unique keys).
-/

/-- Reserved provider-state setup path (source line 240). -/
def providerStatesSetupPath : String := "/__setup/"

/-- ProviderStateV3 as used in this file: a value object carrying the
state name (constructed at source line 221). -/
structure ProviderStateV3 where
  Name : String
deriving DecidableEq

/-- Behaviour of a Go Hook (func() error): the error it returns,
none meaning a nil error. -/
def Hook := Option String

/-- Behaviour of a Go StateHandler (func(ProviderStateV3) error). -/
def StateHandler := ProviderStateV3 → Option String

/-- Go map[string]StateHandler, embedded as an association list. -/
def StateHandlers := List (String × StateHandler)

/-- Request body as seen by the state handler middleware, at the level of
Go encoding/json semantics for stateHandlerAction: invalid means
json.Unmarshal errors; valid carries the action and state fields, with
none for a field absent from the JSON object. -/
inductive Body where
  | invalid
  | valid (action : Option String) (state : Option String)

/-- An incoming HTTP request: its URL path and its body. -/
structure Request where
  path : String
  body : Body

/-- Observable events performed while serving a request. -/
inductive Event where
  | beforeHook
  | afterHook
  | stateCall (s : ProviderStateV3)
  | writeHeader (code : Nat)
  | forward (path : String)
deriving DecidableEq

/-- A handler, embedded by the trace of events it performs on a request. -/
def Handler := Request → List Event

/-- proxy.Middleware: func(next http.Handler) http.Handler. -/
def Middleware := Handler → Handler

/-- The wire payload of the setup path (source lines 183-187). -/
structure stateHandlerAction where
  Action : String
  State : String
deriving DecidableEq

/-- json.Unmarshal of a request body into stateHandlerAction (source
line 205): a malformed body errors, a well-formed one fills absent string
fields with the zero value "". -/
def unmarshalStateHandlerAction : Body → Option stateHandlerAction
  | Body.invalid => none
  | Body.valid a s => some { Action := a.getD "", State := s.getD "" }

/-- Trace appended when a hook returns an error: the middleware writes an
HTTP 500 header (source lines 151-154 and 173-176). -/
def hookFailureTrace : Hook → List Event
  | some _ => [Event.writeHeader 500]
  | none => []

/-- BeforeEachMiddleware (source lines 143-159): on the setup path it
invokes the hook (writing 500 on hook error), then always delegates to
the next handler. -/
def BeforeEachMiddleware (BeforeEach : Hook) : Middleware :=
  fun next r =>
    (if r.path = providerStatesSetupPath then
       Event.beforeHook :: hookFailureTrace BeforeEach
     else []) ++ next r

/-- AfterEachMiddleware (source lines 164-180): it delegates to the next
handler first, then invokes the hook only on non-setup paths (writing 500
on hook error). -/
def AfterEachMiddleware (AfterEach : Hook) : Middleware :=
  fun next r =>
    next r ++
    (if r.path ≠ providerStatesSetupPath then
       Event.afterHook :: hookFailureTrace AfterEach
     else [])

/-- stateHandlerMiddleware (source lines 195-238): on the setup path it
decodes the body (500 on decode failure), looks the state name up in the
handlers map (200 when unmatched), otherwise runs the matched handler
with a ProviderStateV3 carrying the requested name (500 on handler error,
200 on success), and never calls next; any other path is passed through. -/
def stateHandlerMiddleware (stateHandlers : StateHandlers) : Middleware :=
  fun next r =>
    if r.path = providerStatesSetupPath then
      match unmarshalStateHandlerAction r.body with
      | none => [Event.writeHeader 500]
      | some state =>
        match stateHandlers.lookup state.State with
        | none => [Event.writeHeader 200]
        | some sf =>
          match sf { Name := state.State } with
          | some _ => [Event.stateCall { Name := state.State }, Event.writeHeader 500]
          | none => [Event.stateCall { Name := state.State }, Event.writeHeader 200]
    else next r

/-- The HTTP status of a served request: the first explicitly written
header wins (Go ignores later WriteHeader calls); if none is written the
server responds 200. -/
def responseStatus (trace : List Event) : Nat :=
  (trace.findSome? fun e =>
    match e with
    | Event.writeHeader c => some c
    | _ => none).getD 200

/-- The provider states passed to state handler invocations in a trace. -/
def stateCalls (trace : List Event) : List ProviderStateV3 :=
  trace.filterMap fun e =>
    match e with
    | Event.stateCall s => some s
    | _ => none

/-- Number of occurrences of an event in a trace. -/
def countEvent (e : Event) : List Event → Nat
  | [] => 0
  | x :: t => (if x = e then 1 else 0) + countEvent e t

/-- The message of the timeout error built by waitForPort (source
lines 251-252): the Go format string interpolates the timeout duration and
then the caller-supplied diagnostic message. Times are in milliseconds. -/
def timeoutErrorMessage (timeoutMs : Nat) (message : String) : String :=
  "Expected server to start < " ++ toString timeoutMs ++ "ms. " ++ message

/-- One iteration per 50ms tick of the polling loop of waitForPort (source
lines 248-259). The iteration that begins at time 50*k waits on the select:
if the absolute timeout fires no later than the next tick the loop returns
the timeout error, otherwise poll k+1 dials the address (ready gives the
outcome of attempt k+1) and a successful dial returns nil immediately.
fuel bounds the recursion; the caller passes enough fuel that the
exhaustion branch is unreachable, and that branch returns the same timeout
error, keeping the embedding two-valued in every case. -/
def waitLoop (ready : Nat → Bool) (timeoutMs : Nat) (message : String) :
    Nat → Nat → Except String Unit
  | _, 0 => Except.error (timeoutErrorMessage timeoutMs message)
  | k, fuel + 1 =>
    if timeoutMs ≤ 50 * (k + 1) then
      Except.error (timeoutErrorMessage timeoutMs message)
    else if ready (k + 1) then
      Except.ok Unit.unit
    else
      waitLoop ready timeoutMs message (k + 1) fuel

/-- waitForPort (source lines 244-259), embedded over an oracle ready that
tells whether the dial attempt made at the k-th 50ms tick succeeds. There
is no attempt at time zero: the first dial happens at the first tick. -/
def waitForPort (ready : Nat → Bool) (timeoutMs : Nat) (message : String) :
    Except String Unit :=
  waitLoop ready timeoutMs message 0 timeoutMs

/-- url.Parse output as consumed by this file: hostname, port, scheme and
path of the provider base URL (source lines 66-68). -/
structure URLParts where
  hostname : String
  port : String
  scheme : String
  path : String

/-- proxy.Options as filled at source lines 65-72. -/
structure ProxyOptions where
  TargetAddress : String
  TargetScheme : String
  TargetPath : String
  Middleware : List Middleware
  InternalRequestPathPrefix : String
  CustomTLSConfig : Option Unit

/-- VerifyRequest, with the fields this file reads or writes; Go zero
values are the field defaults, so a Go struct literal that omits a field
is embedded by omitting it here. -/
structure VerifyRequest where
  ProviderBaseURL : String := ""
  PactURLs : List String := []
  PactFiles : List String := []
  PactDirs : List String := []
  BrokerURL : String := ""
  Tags : List String := []
  BrokerUsername : String := ""
  BrokerPassword : String := ""
  BrokerToken : String := ""
  PublishVerificationResults : Bool := false
  ProviderVersion : String := ""
  Provider : String := ""
  ProviderStatesSetupURL : String := ""
  ProviderTags : List String := []
  FailIfNoPactsFound : Bool := false
  BeforeEach : Option Hook := none
  AfterEach : Option Hook := none
  StateHandlers : StateHandlers := []
  RequestFilter : Option Middleware := none
  CustomTLSConfig : Option Unit := none

/-- validateConfig (source lines 25-31): ClientTimeout defaults to 10
seconds (here 10000 ms) when unset; the function never returns an error. -/
def validateConfig (clientTimeoutMs : Nat) : Nat :=
  if clientTimeoutMs = 0 then 10000 else clientTimeoutMs

/-- The middleware list assembly of verifyProviderRaw (source lines
46-62): start from the empty list and append, in order, the before-hook,
after-hook, state-handler and request-filter middlewares when present. -/
def buildMiddlewares (request : VerifyRequest) : List Middleware :=
  let m : List Middleware := []
  let m := match request.BeforeEach with
    | some h => m ++ [BeforeEachMiddleware h]
    | none => m
  let m := match request.AfterEach with
    | some h => m ++ [AfterEachMiddleware h]
    | none => m
  let m := if request.StateHandlers.length > 0 then
      m ++ [stateHandlerMiddleware request.StateHandlers]
    else m
  match request.RequestFilter with
  | some f => m ++ [f]
  | none => m

/-- proxy.Options built from the parsed URL and the middleware list
(source lines 65-72). -/
def mkOpts (u : URLParts) (m : List Middleware) (request : VerifyRequest) :
    ProxyOptions :=
  { TargetAddress := u.hostname ++ ":" ++ u.port
    TargetScheme := u.scheme
    TargetPath := u.path
    Middleware := m
    InternalRequestPathPrefix := providerStatesSetupPath
    CustomTLSConfig := request.CustomTLSConfig }

/-- The effective state-setup URL (source lines 82-85): keep the caller's
legacy URL unless it is empty and state handlers are registered, in which
case point at the proxy's reserved path. -/
def computeSetupURL (request : VerifyRequest) (port : Nat) : String :=
  if request.ProviderStatesSetupURL = "" ∧ request.StateHandlers.length > 0 then
    "http://localhost:" ++ toString port ++ providerStatesSetupPath
  else
    request.ProviderStatesSetupURL

/-- The verification-engine request constructed at source lines 88-108:
the Go struct literal names exactly these fields; every other field of
VerifyRequest is left at its zero value. -/
def mkVerificationRequest (request : VerifyRequest) (port : Nat)
    (setupURL : String) : VerifyRequest :=
  { ProviderBaseURL := "http://localhost:" ++ toString port
    PactURLs := request.PactURLs
    PactFiles := request.PactFiles
    PactDirs := request.PactDirs
    BrokerURL := request.BrokerURL
    Tags := request.Tags
    BrokerUsername := request.BrokerUsername
    BrokerPassword := request.BrokerPassword
    BrokerToken := request.BrokerToken
    PublishVerificationResults := request.PublishVerificationResults
    ProviderVersion := request.ProviderVersion
    Provider := request.Provider
    ProviderStatesSetupURL := setupURL
    ProviderTags := request.ProviderTags
    FailIfNoPactsFound := request.FailIfNoPactsFound }

/-- The environment of one verification run: the outcomes of the calls the
orchestrator makes into the outside world. parseURL is url.Parse (none =
parse error), httpReverseProxy returns the bound port and a possible
start error, portReady gives the outcome of the k-th readiness dial
against a port, engineResult is the error returned by
verificationRequest.verify. -/
structure WorldOracle where
  parseURL : String → Option URLParts
  httpReverseProxy : ProxyOptions → Nat × Option String
  portReady : Nat → Nat → Bool
  engineResult : VerifyRequest → Option String

/-- How one run of verifyProviderRaw ends.
 * panicked: a nil pointer dereference (u.Hostname() with u = nil after a
   url.Parse error whose err the source never checks).
 * fatalExit: log.Fatal was reached (source line 114), which exits the
   process; it carries the stale proxy-start error that the source logs
   there. The following return statement is unreachable.
 * engineInvoked: verificationRequest.verify ran; carries the bound port,
   the constructed request and the engine's returned error. -/
inductive RunOutcome where
  | panicked
  | fatalExit (staleErr : Option String)
  | engineInvoked (port : Nat) (vreq : VerifyRequest) (result : Option String)

/-- verifyProviderRaw (source lines 37-121) over a WorldOracle. The
source assigns but never checks the url.Parse error (u is dereferenced at
line 66, so a parse failure is a nil dereference) and never checks the
HTTPReverseProxy error; on readiness timeout it calls log.Fatal before the
return statement, so the process exits. -/
def verifyProviderRaw (W : WorldOracle) (clientTimeoutMs : Nat)
    (request : VerifyRequest) : RunOutcome :=
  let timeoutMs := validateConfig clientTimeoutMs
  match W.parseURL request.ProviderBaseURL with
  | none => RunOutcome.panicked
  | some u =>
    let m := buildMiddlewares request
    let pr := W.httpReverseProxy (mkOpts u m request)
    let port := pr.fst
    let proxyErr := pr.snd
    let setupURL := computeSetupURL request port
    let verificationRequest := mkVerificationRequest request port setupURL
    match waitForPort (W.portReady port) timeoutMs
        ("Timed out waiting for http verification proxy on port " ++
          toString port ++ " - check for errors") with
    | Except.error _ => RunOutcome.fatalExit proxyErr
    | Except.ok _ =>
      RunOutcome.engineInvoked port verificationRequest
        (W.engineResult verificationRequest)

/-- Follows the spec's words (section 4.4), for comparison with
buildMiddlewares, which is translated from the source: the pipeline is
the subsequence of the four candidate middlewares whose components are
present, in the fixed precedence before-hook, after-hook, state-handler,
request filter; absent components are omitted. -/
def middlewarePipelineSpec (request : VerifyRequest) : List Middleware :=
  [request.BeforeEach.map BeforeEachMiddleware,
   request.AfterEach.map AfterEachMiddleware,
   (match request.StateHandlers with
    | [] => none
    | _ => some (stateHandlerMiddleware request.StateHandlers)),
   request.RequestFilter].filterMap id

/-- A parsed provider base URL used by concrete runs. -/
def stubURL : URLParts :=
  { hostname := "localhost", port := "8000", scheme := "http", path := "" }

/-- A world where url.Parse fails on the provider base URL. -/
def oracleParseFail : WorldOracle :=
  { parseURL := fun _ => none
    httpReverseProxy := fun _ => (1234, none)
    portReady := fun _ _ => true
    engineResult := fun _ => none }

/-- A world where the proxy starts on port 1234 but no readiness dial
ever succeeds. -/
def oracleNeverReady : WorldOracle :=
  { parseURL := fun _ => some stubURL
    httpReverseProxy := fun _ => (1234, none)
    portReady := fun _ _ => false
    engineResult := fun _ => none }

/-- A world where HTTPReverseProxy returns an error (with port 0) yet the
readiness dial against that port succeeds. -/
def oracleProxyFailButReady : WorldOracle :=
  { parseURL := fun _ => some stubURL
    httpReverseProxy := fun _ => (0, some "proxy start failed")
    portReady := fun _ _ => true
    engineResult := fun _ => none }

/-- A world where everything goes right: the proxy binds port 1234, the
port becomes ready, and the engine reports success. -/
def oracleOK : WorldOracle :=
  { parseURL := fun _ => some stubURL
    httpReverseProxy := fun _ => (1234, none)
    portReady := fun _ _ => true
    engineResult := fun _ => none }

/-- A request with only a provider base URL set. -/
def plainRequest : VerifyRequest := { ProviderBaseURL := "http://localhost:8000" }

/-- A request with one registered state handler and no legacy setup URL. -/
def handlerRequest : VerifyRequest :=
  { ProviderBaseURL := "http://localhost:8000"
    StateHandlers := [("User foo exists", fun _ => none)] }

/-- A request with a before hook registered. -/
def hookedRequest : VerifyRequest :=
  { ProviderBaseURL := "http://localhost:8000"
    BeforeEach := some none }

/-- An inner handler that forwards every request to the real provider. -/
def innerForward : Handler := fun r => [Event.forward r.path]

/-- A request to the reserved setup path with an undecodable body. -/
def setupRequest : Request :=
  { path := providerStatesSetupPath, body := Body.invalid }

/-- A request to an ordinary application path. -/
def apiRequest : Request :=
  { path := "/api/products", body := Body.invalid }

/-- One registered state handler that always succeeds. -/
def fooHandlers : StateHandlers := [("User foo exists", fun _ => none)]

/-- A setup-path request naming the registered state. -/
def fooSetupRequest : Request :=
  { path := providerStatesSetupPath
    body := Body.valid (some "setup") (some "User foo exists") }

/-- A setup-path request whose body is valid JSON without a state field. -/
def statelessRequest : Request :=
  { path := providerStatesSetupPath, body := Body.valid (some "setup") none }

theorem countEvent_append (e : Event) (l1 l2 : List Event) :
    countEvent e (l1 ++ l2) = countEvent e l1 + countEvent e l2 := by
  induction l1 with
  | nil => simp [countEvent]
  | cons x t ih => simp [countEvent, ih, Nat.add_assoc]

theorem countEvent_eq_zero_of (x : Event) (l : List Event)
    (h : ∀ e ∈ l, e ≠ x) : countEvent x l = 0 := by
  induction l with
  | nil => rfl
  | cons y t ih =>
    have hy : y ≠ x := h y (by simp)
    simp only [countEvent, if_neg hy, Nat.zero_add]
    exact ih fun e he => h e (by simp [he])

theorem countEvent_beforeHook_hookFailureTrace (hk : Hook) :
    countEvent Event.beforeHook (hookFailureTrace hk) = 0 := by
  cases hk <;> rfl

theorem countEvent_afterHook_hookFailureTrace (hk : Hook) :
    countEvent Event.afterHook (hookFailureTrace hk) = 0 := by
  cases hk <;> rfl

theorem waitLoop_two_valued (ready : Nat → Bool) (T : Nat) (msg : String) :
    ∀ fuel k, waitLoop ready T msg k fuel = Except.ok () ∨
      waitLoop ready T msg k fuel = Except.error (timeoutErrorMessage T msg) := by
  intro fuel
  induction fuel with
  | zero => intro k; right; rfl
  | succ fuel ih =>
    intro k
    by_cases h1 : T ≤ 50 * (k + 1)
    · right; simp [waitLoop, h1]
    · by_cases h2 : ready (k + 1) = true
      · left; simp [waitLoop, h1, h2]
      · have : waitLoop ready T msg k (fuel + 1) = waitLoop ready T msg (k + 1) fuel := by
          simp [waitLoop, h1, h2]
        rw [this]
        exact ih (k + 1)

theorem waitLoop_ok_iff (ready : Nat → Bool) (T : Nat) (msg : String) :
    ∀ fuel k, waitLoop ready T msg k fuel = Except.ok () ↔
      ∃ j, k < j ∧ j ≤ k + fuel ∧ 50 * j < T ∧ ready j = true := by
  intro fuel
  induction fuel with
  | zero =>
    intro k
    constructor
    · intro h; simp [waitLoop] at h
    · rintro ⟨j, h1, h2, -, -⟩; omega
  | succ fuel ih =>
    intro k
    by_cases h1 : T ≤ 50 * (k + 1)
    · simp only [waitLoop, if_pos h1]
      constructor
      · intro h; simp at h
      · rintro ⟨j, hj1, -, hj3, -⟩
        exfalso
        omega
    · by_cases h2 : ready (k + 1) = true
      · simp only [waitLoop, if_neg h1, h2, if_pos]
        constructor
        · intro _
          exact ⟨k + 1, by omega, by omega, by omega, h2⟩
        · intro _; trivial
      · have hstep : waitLoop ready T msg k (fuel + 1) = waitLoop ready T msg (k + 1) fuel := by
          simp [waitLoop, h1, h2]
        rw [hstep, ih (k + 1)]
        constructor
        · rintro ⟨j, hj1, hj2, hj3, hj4⟩
          exact ⟨j, by omega, by omega, hj3, hj4⟩
        · rintro ⟨j, hj1, hj2, hj3, hj4⟩
          refine ⟨j, ?_, by omega, hj3, hj4⟩
          rcases Nat.lt_or_ge (k + 1) j with h | h
          · exact h
          · exfalso
            have : j = k + 1 := by omega
            rw [this] at hj4
            exact h2 hj4

/-- C9: waitForPort polls the target address by attempting a connection
every 50ms with no attempt at time zero (the oracle ready is consulted
exactly at the tick indices 1, 2, ...): it returns success exactly when
some attempt within the timeout window succeeds, otherwise it returns the
timeout error, and the timeout error message carries the supplied
diagnostic message; those two results are the only possible ones. -/
theorem waitForPort_contract (ready : Nat → Bool) (T : Nat) (msg : String) :
    (waitForPort ready T msg = Except.ok () ∨
      waitForPort ready T msg = Except.error (timeoutErrorMessage T msg)) ∧
    (waitForPort ready T msg = Except.ok () ↔
      ∃ k, 1 ≤ k ∧ 50 * k < T ∧ ready k = true) ∧
    (∃ pre, timeoutErrorMessage T msg = pre ++ msg) := by
  refine ⟨waitLoop_two_valued ready T msg T 0, ?_,
    ⟨"Expected server to start < " ++ toString T ++ "ms. ", rfl⟩⟩
  rw [waitForPort, waitLoop_ok_iff]
  constructor
  · rintro ⟨j, h1, h2, h3, h4⟩
    exact ⟨j, by omega, h3, h4⟩
  · rintro ⟨k, h1, h2, h3⟩
    exact ⟨k, by omega, by omega, h2, h3⟩

/-- C3: on the reserved setup path, stateHandlerMiddleware responds 500
with no handler invoked when the body fails to decode; 200 with no
handler invoked when the decoded state name is not registered; otherwise
it invokes the matched handler exactly once, with a ProviderState whose
name equals the requested state, answering 200 on handler success and 500
on handler failure. -/
theorem stateHandlerMiddleware_setup_responses (hs : StateHandlers)
    (next : Handler) (r : Request)
    (hpath : r.path = providerStatesSetupPath) :
    (unmarshalStateHandlerAction r.body = none →
      responseStatus (stateHandlerMiddleware hs next r) = 500 ∧
      stateCalls (stateHandlerMiddleware hs next r) = []) ∧
    (∀ a, unmarshalStateHandlerAction r.body = some a →
      (List.lookup a.State hs = none →
        responseStatus (stateHandlerMiddleware hs next r) = 200 ∧
        stateCalls (stateHandlerMiddleware hs next r) = []) ∧
      (∀ sf, List.lookup a.State hs = some sf →
        stateCalls (stateHandlerMiddleware hs next r) = [{ Name := a.State }] ∧
        (sf { Name := a.State } = none →
          responseStatus (stateHandlerMiddleware hs next r) = 200) ∧
        (∀ e, sf { Name := a.State } = some e →
          responseStatus (stateHandlerMiddleware hs next r) = 500))) := by
  refine ⟨?_, ?_⟩
  · intro hdec
    simp [stateHandlerMiddleware, hpath, hdec, responseStatus, stateCalls]
  · intro a ha
    refine ⟨?_, ?_⟩
    · intro hlook
      simp [stateHandlerMiddleware, hpath, ha, hlook, responseStatus, stateCalls]
    · intro sf hsf
      refine ⟨?_, ?_, ?_⟩
      · cases hres : sf { Name := a.State } <;>
          simp [stateHandlerMiddleware, hpath, ha, hsf, hres, stateCalls]
      · intro hok
        simp [stateHandlerMiddleware, hpath, ha, hsf, hok, responseStatus]
      · intro e herr
        simp [stateHandlerMiddleware, hpath, ha, hsf, herr, responseStatus]

theorem stateHandlerMiddleware_setup_responses_witness :
    stateCalls (stateHandlerMiddleware fooHandlers innerForward fooSetupRequest)
      = [{ Name := "User foo exists" }] ∧
    responseStatus (stateHandlerMiddleware fooHandlers innerForward fooSetupRequest)
      = 200 := by
  have h := stateHandlerMiddleware_setup_responses fooHandlers innerForward
    fooSetupRequest rfl
  have h2 := (h.2 { Action := "setup", State := "User foo exists" } rfl).2
    (fun _ => none) rfl
  exact ⟨h2.1, h2.2.1 rfl⟩

/-- C6: on the reserved setup path, stateHandlerMiddleware terminates the
chain in every branch: its trace does not depend on the next handler at
all, and the request is never forwarded to the real provider. -/
theorem stateHandlerMiddleware_never_forwards (hs : StateHandlers)
    (next1 next2 : Handler) (r : Request)
    (hpath : r.path = providerStatesSetupPath) :
    stateHandlerMiddleware hs next1 r = stateHandlerMiddleware hs next2 r ∧
    (∀ p, Event.forward p ∉ stateHandlerMiddleware hs next1 r) := by
  constructor
  · simp [stateHandlerMiddleware, hpath]
  · intro p
    simp only [stateHandlerMiddleware, hpath, if_pos]
    rcases h1 : unmarshalStateHandlerAction r.body with - | a
    · simp [h1]
    · rcases h2 : List.lookup a.State hs with - | sf
      · simp [h1, h2]
      · rcases h3 : sf { Name := a.State } with - | e <;> simp [h1, h2, h3]

theorem stateHandlerMiddleware_never_forwards_witness :
    stateHandlerMiddleware fooHandlers innerForward setupRequest
      = stateHandlerMiddleware fooHandlers (fun _ => []) setupRequest ∧
    Event.forward setupRequest.path ∉
      stateHandlerMiddleware fooHandlers innerForward setupRequest := by
  have h := stateHandlerMiddleware_never_forwards fooHandlers innerForward
    (fun _ => []) setupRequest rfl
  exact ⟨h.1, h.2 setupRequest.path⟩

/-- C10: a setup-path body that is valid JSON but omits the state field,
or sets it to the empty string, decodes to a stateHandlerAction whose
state is the empty string; when no handler is registered under the empty
name the middleware answers 200 and invokes no handler. -/
theorem stateHandlerMiddleware_stateless_payload (hs : StateHandlers)
    (next : Handler) (act : Option String) (r : Request)
    (hpath : r.path = providerStatesSetupPath)
    (hbody : r.body = Body.valid act none ∨ r.body = Body.valid act (some ""))
    (hmiss : List.lookup "" hs = none) :
    unmarshalStateHandlerAction r.body
      = some { Action := act.getD "", State := "" } ∧
    responseStatus (stateHandlerMiddleware hs next r) = 200 ∧
    stateCalls (stateHandlerMiddleware hs next r) = [] := by
  have hdec : unmarshalStateHandlerAction r.body
      = some { Action := act.getD "", State := "" } := by
    rcases hbody with h | h <;> simp [h, unmarshalStateHandlerAction]
  refine ⟨hdec, ?_, ?_⟩ <;>
    simp [stateHandlerMiddleware, hpath, hdec, hmiss, responseStatus, stateCalls]

theorem stateHandlerMiddleware_stateless_payload_witness :
    unmarshalStateHandlerAction statelessRequest.body
      = some { Action := "setup", State := "" } ∧
    responseStatus (stateHandlerMiddleware fooHandlers innerForward statelessRequest)
      = 200 ∧
    stateCalls (stateHandlerMiddleware fooHandlers innerForward statelessRequest)
      = [] := by
  exact stateHandlerMiddleware_stateless_payload fooHandlers innerForward
    (some "setup") statelessRequest rfl (Or.inl rfl) rfl

theorem beforeHook_fires_on_setup :
    Event.beforeHook ∈
      BeforeEachMiddleware none (fun _ => [])
        { path := providerStatesSetupPath, body := Body.invalid } := by
  simp [BeforeEachMiddleware, hookFailureTrace]

/-- C4 (amended): on the reserved setup path the after-hook middleware
never invokes its hook, while the before-hook middleware invokes its hook
exactly once; the never-fires invariant holds only for the after-hook. -/
theorem hooks_setup_asymmetry (b a : Hook) (inner : Handler) (r : Request)
    (hpath : r.path = providerStatesSetupPath)
    (hclean : ∀ e ∈ inner r, e ≠ Event.beforeHook ∧ e ≠ Event.afterHook) :
    countEvent Event.afterHook (AfterEachMiddleware a inner r) = 0 ∧
    countEvent Event.beforeHook (BeforeEachMiddleware b inner r) = 1 := by
  have hin_b : countEvent Event.beforeHook (inner r) = 0 :=
    countEvent_eq_zero_of _ _ fun e he => (hclean e he).1
  have hin_a : countEvent Event.afterHook (inner r) = 0 :=
    countEvent_eq_zero_of _ _ fun e he => (hclean e he).2
  constructor
  · simp [AfterEachMiddleware, hpath, countEvent_append, hin_a, countEvent]
  · simp [BeforeEachMiddleware, hpath, countEvent_append, countEvent,
      countEvent_beforeHook_hookFailureTrace b, hin_b]

theorem hooks_setup_asymmetry_witness :
    countEvent Event.afterHook
      (AfterEachMiddleware (some "after boom") innerForward setupRequest) = 0 ∧
    countEvent Event.beforeHook
      (BeforeEachMiddleware none innerForward setupRequest) = 1 := by
  exact hooks_setup_asymmetry none (some "after boom") innerForward setupRequest
    rfl (by simp [innerForward, setupRequest])

/-- C5: composing the before-hook middleware (outermost) around the
after-hook middleware around any inner handler that itself performs no
hook events: on a non-reserved path the before-hook never fires and the
after-hook fires exactly once, after the whole inner trace; on the
reserved setup path the before-hook fires exactly once, before
delegating, and the after-hook never fires. -/
theorem hookMiddlewares_invocation (b a : Hook) (inner : Handler) (r : Request)
    (hclean : ∀ e ∈ inner r, e ≠ Event.beforeHook ∧ e ≠ Event.afterHook) :
    (r.path ≠ providerStatesSetupPath →
      BeforeEachMiddleware b (AfterEachMiddleware a inner) r
        = inner r ++ Event.afterHook :: hookFailureTrace a ∧
      countEvent Event.beforeHook
        (BeforeEachMiddleware b (AfterEachMiddleware a inner) r) = 0 ∧
      countEvent Event.afterHook
        (BeforeEachMiddleware b (AfterEachMiddleware a inner) r) = 1) ∧
    (r.path = providerStatesSetupPath →
      BeforeEachMiddleware b (AfterEachMiddleware a inner) r
        = Event.beforeHook :: (hookFailureTrace b ++ inner r) ∧
      countEvent Event.afterHook
        (BeforeEachMiddleware b (AfterEachMiddleware a inner) r) = 0 ∧
      countEvent Event.beforeHook
        (BeforeEachMiddleware b (AfterEachMiddleware a inner) r) = 1) := by
  have hin_b : countEvent Event.beforeHook (inner r) = 0 :=
    countEvent_eq_zero_of _ _ fun e he => (hclean e he).1
  have hin_a : countEvent Event.afterHook (inner r) = 0 :=
    countEvent_eq_zero_of _ _ fun e he => (hclean e he).2
  constructor
  · intro hne
    have htrace : BeforeEachMiddleware b (AfterEachMiddleware a inner) r
        = inner r ++ Event.afterHook :: hookFailureTrace a := by
      simp [BeforeEachMiddleware, AfterEachMiddleware, hne]
    refine ⟨htrace, ?_, ?_⟩
    · rw [htrace, countEvent_append]
      simp [countEvent, hin_b, countEvent_beforeHook_hookFailureTrace a]
    · rw [htrace, countEvent_append]
      simp [countEvent, hin_a, countEvent_afterHook_hookFailureTrace a]
  · intro hp
    have htrace : BeforeEachMiddleware b (AfterEachMiddleware a inner) r
        = Event.beforeHook :: (hookFailureTrace b ++ inner r) := by
      simp [BeforeEachMiddleware, AfterEachMiddleware, hp]
    refine ⟨htrace, ?_, ?_⟩
    · rw [htrace]
      simp [countEvent, countEvent_append, hin_a,
        countEvent_afterHook_hookFailureTrace b]
    · rw [htrace]
      simp [countEvent, countEvent_append, hin_b,
        countEvent_beforeHook_hookFailureTrace b]

theorem hookMiddlewares_invocation_witness :
    BeforeEachMiddleware (some "before boom") (AfterEachMiddleware none innerForward)
        apiRequest
      = innerForward apiRequest ++ Event.afterHook :: hookFailureTrace none ∧
    countEvent Event.beforeHook
      (BeforeEachMiddleware (some "before boom") (AfterEachMiddleware none innerForward)
        apiRequest) = 0 ∧
    countEvent Event.afterHook
      (BeforeEachMiddleware (some "before boom") (AfterEachMiddleware none innerForward)
        apiRequest) = 1 := by
  exact (hookMiddlewares_invocation (some "before boom") none innerForward apiRequest
    (by simp [innerForward, apiRequest])).1 (by simp [apiRequest, providerStatesSetupPath])

/-- C7: the middleware list assembled by verifyProviderRaw equals the
spec's fixed-precedence subsequence of the four candidates, with absent
components omitted; the assembly is a total pure function, so it performs
no I/O and cannot fail. -/
theorem buildMiddlewares_eq_spec (request : VerifyRequest) :
    buildMiddlewares request = middlewarePipelineSpec request := by
  rcases hb : request.BeforeEach with - | b <;>
  rcases ha : request.AfterEach with - | a <;>
  rcases hf : request.RequestFilter with - | f <;>
  rcases hs : request.StateHandlers with - | ⟨p, t⟩ <;>
    simp [buildMiddlewares, middlewarePipelineSpec, hb, ha, hf, hs]

theorem engineInvoked_inversion (W : WorldOracle) (T : Nat)
    (request : VerifyRequest) (port : Nat) (vreq : VerifyRequest)
    (res : Option String)
    (h : verifyProviderRaw W T request = RunOutcome.engineInvoked port vreq res) :
    vreq = mkVerificationRequest request port (computeSetupURL request port) := by
  simp only [verifyProviderRaw] at h
  split at h
  · simp at h
  · split at h
    · simp at h
    · injection h with h1 h2 h3
      subst h1
      exact h2.symm

/-- C2: whenever verifyProviderRaw reaches the engine, the state-setup
URL handed over equals the original ProviderStatesSetupURL, except when
that is empty while state handlers are registered, in which case it is
the proxy's own reserved path on the bound port. -/
theorem setupURL_of_engine_request (W : WorldOracle) (T : Nat)
    (request : VerifyRequest) (port : Nat) (vreq : VerifyRequest)
    (res : Option String)
    (h : verifyProviderRaw W T request = RunOutcome.engineInvoked port vreq res) :
    (request.ProviderStatesSetupURL = "" ∧ request.StateHandlers ≠ [] →
      vreq.ProviderStatesSetupURL =
        "http://localhost:" ++ toString port ++ "/__setup/") ∧
    (¬(request.ProviderStatesSetupURL = "" ∧ request.StateHandlers ≠ []) →
      vreq.ProviderStatesSetupURL = request.ProviderStatesSetupURL) := by
  have hv := engineInvoked_inversion W T request port vreq res h
  subst hv
  constructor
  · rintro ⟨he, hne⟩
    have hlen : request.StateHandlers.length > 0 := by
      cases hl : request.StateHandlers with
      | nil => exact absurd hl hne
      | cons x t => simp [hl]
    simp [mkVerificationRequest, computeSetupURL, he, hlen,
      providerStatesSetupPath]
  · intro hnot
    have : ¬(request.ProviderStatesSetupURL = "" ∧
        request.StateHandlers.length > 0) := by
      intro ⟨he, hlen⟩
      refine hnot ⟨he, ?_⟩
      cases hl : request.StateHandlers with
      | nil => rw [hl] at hlen; simp at hlen
      | cons x t => simp [hl]
    simp [mkVerificationRequest, computeSetupURL, this]

theorem setupURL_of_engine_request_witness :
    (mkVerificationRequest handlerRequest 1234
        (computeSetupURL handlerRequest 1234)).ProviderStatesSetupURL =
      "http://localhost:1234/__setup/" := by
  have h := setupURL_of_engine_request oracleOK 100 handlerRequest 1234
    (mkVerificationRequest handlerRequest 1234 (computeSetupURL handlerRequest 1234))
    none rfl
  have hout := h.1 ⟨rfl, by simp [handlerRequest]⟩
  exact hout.trans (by rfl)

theorem engineRequest_drops_hooks :
    verifyProviderRaw oracleOK 100 hookedRequest =
      RunOutcome.engineInvoked 1234
        (mkVerificationRequest hookedRequest 1234 (computeSetupURL hookedRequest 1234))
        none ∧
    hookedRequest.BeforeEach = some none ∧
    (mkVerificationRequest hookedRequest 1234
        (computeSetupURL hookedRequest 1234)).BeforeEach = none ∧
    (mkVerificationRequest hookedRequest 1234 (computeSetupURL hookedRequest 1234)) ≠
      { hookedRequest with
          ProviderBaseURL :=
            (mkVerificationRequest hookedRequest 1234
              (computeSetupURL hookedRequest 1234)).ProviderBaseURL
          ProviderStatesSetupURL :=
            (mkVerificationRequest hookedRequest 1234
              (computeSetupURL hookedRequest 1234)).ProviderStatesSetupURL } := by
  refine ⟨rfl, rfl, rfl, ?_⟩
  intro hEq
  have hb := congrArg VerifyRequest.BeforeEach hEq
  simp [mkVerificationRequest, hookedRequest] at hb

/-- C8 (amended): the request handed to the verification engine carries
the rewritten provider base URL, passes all broker, publishing, tag,
pact-source and filtering fields through unchanged, and resets the
lifecycle fields (hooks, state handlers, request filter, TLS config) to
their zero values instead of passing them through. -/
theorem engineRequest_field_frame (W : WorldOracle) (T : Nat)
    (request : VerifyRequest) (port : Nat) (vreq : VerifyRequest)
    (res : Option String)
    (h : verifyProviderRaw W T request = RunOutcome.engineInvoked port vreq res) :
    vreq.PactURLs = request.PactURLs ∧
    vreq.PactFiles = request.PactFiles ∧
    vreq.PactDirs = request.PactDirs ∧
    vreq.BrokerURL = request.BrokerURL ∧
    vreq.Tags = request.Tags ∧
    vreq.BrokerUsername = request.BrokerUsername ∧
    vreq.BrokerPassword = request.BrokerPassword ∧
    vreq.BrokerToken = request.BrokerToken ∧
    vreq.PublishVerificationResults = request.PublishVerificationResults ∧
    vreq.ProviderVersion = request.ProviderVersion ∧
    vreq.Provider = request.Provider ∧
    vreq.ProviderTags = request.ProviderTags ∧
    vreq.FailIfNoPactsFound = request.FailIfNoPactsFound ∧
    vreq.ProviderBaseURL = "http://localhost:" ++ toString port ∧
    vreq.BeforeEach = none ∧
    vreq.AfterEach = none ∧
    vreq.StateHandlers = [] ∧
    vreq.RequestFilter = none ∧
    vreq.CustomTLSConfig = none := by
  have hv := engineInvoked_inversion W T request port vreq res h
  subst hv
  exact ⟨rfl, rfl, rfl, rfl, rfl, rfl, rfl, rfl, rfl, rfl, rfl, rfl, rfl, rfl,
    rfl, rfl, rfl, rfl, rfl⟩

theorem engineRequest_field_frame_witness :
    (mkVerificationRequest handlerRequest 1234
        (computeSetupURL handlerRequest 1234)).PactURLs = handlerRequest.PactURLs ∧
    (mkVerificationRequest handlerRequest 1234
        (computeSetupURL handlerRequest 1234)).BeforeEach = none := by
  have h := engineRequest_field_frame oracleOK 100 handlerRequest 1234
    (mkVerificationRequest handlerRequest 1234 (computeSetupURL handlerRequest 1234))
    none rfl
  exact ⟨h.1, h.2.2.2.2.2.2.2.2.2.2.2.2.2.2.1⟩

/-- C1 (code bug): the source never checks the url.Parse error (a parse
failure leads to a nil dereference, not an error return), never checks
the HTTPReverseProxy error (a run can even reach the engine after a
proxy-start failure), and on readiness timeout calls log.Fatal, which
exits the process before the return statement, so the timeout error is
not returned either; in no failure case is the error returned to the
caller as the claim states. -/
theorem verifyProviderRaw_error_paths_bug :
    verifyProviderRaw oracleParseFail 100 plainRequest = RunOutcome.panicked ∧
    verifyProviderRaw oracleNeverReady 100 plainRequest =
      RunOutcome.fatalExit none ∧
    verifyProviderRaw oracleProxyFailButReady 100 plainRequest =
      RunOutcome.engineInvoked 0
        (mkVerificationRequest plainRequest 0 (computeSetupURL plainRequest 0))
        none := by
  exact ⟨rfl, rfl, rfl⟩
